import Mathlib

/-!
Verification of the inventory store in `fixed_inventory_system.py`.

The source keeps a global Python dict `stock_data` mapping item names to
quantities and exposes `add_item`, `remove_item`, `get_quantity`,
`check_low_items`, `load_data` and `save_data`.  We embed the store as an
association list with Python dict semantics (insertion order, first-match
lookup, in-place replacement on assignment), and Python runtime values as
the inductive `PyVal`, because `load_data` can install arbitrary parsed
JSON values into the store without validation.  Operations that can let a
Python exception escape to the caller return `Except String`; operations
that the source wraps in exhaustive try/except blocks are total.
-/

set_option autoImplicit false

/-- Python runtime values restricted to what `json.loads` can produce and
what the inventory code manipulates: `null` is Python `None`; JSON object
keys are always strings, so dict keys are strings. -/
inductive PyVal where
  | null
  | bool (b : Bool)
  | int (n : Int)
  | str (s : String)
  | list (xs : List PyVal)
  | dict (kvs : List (String × PyVal))

/-- The in-memory store: a Python dict as an insertion-ordered association
list from item name to stored value. -/
abbrev Store := List (String × PyVal)

/-- ASCII whitespace stripped by the Python default `str.strip`. -/
def pyIsSpace (c : Char) : Bool :=
  c = ' ' || c = '\t' || c = '\n' || c = '\r' || c = '\x0b' || c = '\x0c'

/-- Python `s.strip()`: drop leading and trailing whitespace. -/
def pyStrip (s : String) : String :=
  String.mk (((s.data.dropWhile pyIsSpace).reverse.dropWhile pyIsSpace).reverse)

/-- Python `isinstance(x, int)`.  Note that Python `bool` is a subclass of
`int`, so booleans pass this check. -/
def pyIsInt : PyVal → Bool
  | .int _ => true
  | .bool _ => true
  | _ => false

/-- Numeric value of an int-like Python value (booleans count as 1 and 0);
other values have no numeric reading and default to 0, matching nothing in
the source: `pyToInt` is only applied where `pyIsInt` already holds. -/
def pyToInt : PyVal → Int
  | .int n => n
  | .bool b => if b then 1 else 0
  | _ => 0

/-- Whether a stored value is a genuine integer (not a bool). -/
def isIntVal : PyVal → Bool
  | .int _ => true
  | _ => false

/-- Python dict lookup `d[k]` / `d.get(k)`: first entry with the key. -/
def dictGet : Store → String → Option PyVal
  | [], _ => none
  | (k, v) :: rest, key => if k = key then some v else dictGet rest key

/-- Python dict assignment `d[k] = v`: replace the value in place if the
key is present, otherwise append the new pair at the end. -/
def dictSet : Store → String → PyVal → Store
  | [], key, val => [(key, val)]
  | (k, v) :: rest, key, val =>
    if k = key then (key, val) :: rest else (k, v) :: dictSet rest key val

/-- Python `del d[k]`: drop every entry with the key (a dict holds at most
one). -/
def dictDel : Store → String → Store
  | [], _ => []
  | (k, v) :: rest, key =>
    if k = key then dictDel rest key else (k, v) :: dictDel rest key

/-- Severity levels of the Python `logging` module used by the source. -/
inductive LogLevel where
  | info
  | warning
  | error
  | critical
deriving DecidableEq, Repr

/-- A log record: severity and message.  The interpolated values of the
source messages are elided; each distinct code path keeps a distinct
message text. -/
abbrev LogEntry := LogLevel × String

def msgAddBadItem : String := "add_item: invalid item name, must be a non-empty string"

def msgAddBadQty : String := "add_item: invalid quantity, must be a non-negative integer"

def msgAdded : String := "added qty of item, new total logged"

def msgRemBadItem : String := "remove_item: invalid item name"

def msgRemBadQty : String := "remove_item: invalid quantity, must be a non-negative integer"

def msgRemMissing : String := "remove_item: attempted to remove non-existent item"

def msgRemTypeErr : String := "remove_item: type error for item, check data"

def msgRemAll : String := "removed all remaining stock of item"

def msgRemSome : String := "removed qty of item, new total logged"

def msgLoadNotFound : String := "file not found, starting with an empty inventory"

def msgLoadEmpty : String := "file is empty, initializing empty inventory"

def msgLoadDecode : String := "could not decode JSON, starting with empty inventory"

def msgLoadIo : String := "failed to load data due to an IO error"

def msgLoadOk : String := "successfully loaded data"

def msgSaveOk : String := "successfully saved data"

/-- Python `stored + qty` for an int-like `qty` as in
`stock_data.get(item, 0) + qty`: defined when the stored value is
int-like, a `TypeError` otherwise (the source does not catch it in
`add_item`). -/
def pyAddInt (v : PyVal) (q : Int) : Except String PyVal :=
  if pyIsInt v then .ok (.int (pyToInt v + q)) else .error ("TypeError")

/-- Embeds `add_item(item, qty)` (source lines 21-46).  Validation: `item`
must be a string whose strip is non-empty, `qty` an `int` that is not
negative; a failed check logs an error and leaves the store unchanged.
Then `stock_data[item] = stock_data.get(item, 0) + qty`; if the stored
value is not int-like the addition raises an uncaught `TypeError`,
modelled by the `Except.error` result. -/
def add_item (stock : Store) (item qty : PyVal) : Except String (Store × List LogEntry) :=
  match item with
  | .str s =>
    if pyStrip s = "" then .ok (stock, [(.error, msgAddBadItem)])
    else if ¬ pyIsInt qty ∨ pyToInt qty < 0 then .ok (stock, [(.error, msgAddBadQty)])
    else
      match pyAddInt ((dictGet stock s).getD (.int 0)) (pyToInt qty) with
      | .ok v => .ok (dictSet stock s v, [(.info, msgAdded)])
      | .error e => .error e
  | _ => .ok (stock, [(.error, msgAddBadItem)])

/-- Embeds `remove_item(item, qty)` (source lines 49-91).  Validation as
in `add_item`.  The body is wrapped in try/except catching `KeyError`
(missing item, a warning) and `TypeError` (non int-like stored value in
the comparison, an error), so the function is total: if
`qty >= stock_data[item]` the key is deleted, otherwise
`stock_data[item] -= qty`. -/
def remove_item (stock : Store) (item qty : PyVal) : Store × List LogEntry :=
  match item with
  | .str s =>
    if pyStrip s = "" then (stock, [(.error, msgRemBadItem)])
    else if ¬ pyIsInt qty ∨ pyToInt qty < 0 then (stock, [(.error, msgRemBadQty)])
    else
      match dictGet stock s with
      | none => (stock, [(.warning, msgRemMissing)])
      | some v =>
        if pyIsInt v then
          if pyToInt v ≤ pyToInt qty then (dictDel stock s, [(.info, msgRemAll)])
          else (dictSet stock s (.int (pyToInt v - pyToInt qty)), [(.info, msgRemSome)])
        else (stock, [(.error, msgRemTypeErr)])
  | _ => (stock, [(.error, msgRemBadItem)])

/-- Embeds `get_quantity(item)` (source lines 93-104):
`stock_data.get(item, 0)`.  Total: `.get` never raises for a string key
and performs no mutation. -/
def get_quantity (stock : Store) (item : String) : PyVal :=
  (dictGet stock item).getD (.int 0)

/-- Embeds `check_low_items(threshold)` (source lines 179-191): the list
comprehension over `stock_data.items()` keeping names whose quantity is
`<= threshold`.  The comparison raises an uncaught `TypeError` at the
first stored value that is not int-like. -/
def check_low_items : Store → Int → Except String (List String)
  | [], _ => .ok []
  | (k, v) :: rest, threshold =>
    if pyIsInt v then
      (check_low_items rest threshold).map
        (fun r => if pyToInt v ≤ threshold then k :: r else r)
    else .error ("TypeError")

/-- The observable state of the file passed to `load_data`, abstracted to
the outcome of reading and JSON-parsing it: the file is missing, opening
or reading fails with an OS-level `IOError`, its content is the empty
string, its content fails `json.loads`, or its content parses to a value.
-/
inductive LoadInput where
  | notFound
  | ioFail
  | empty
  | undecodable
  | parsed (v : PyVal)

/-- One step of Python `dict.update(x)` when `x` is not a dict: each
element of the iterated sequence must be a key-value pair, i.e. an
iterable of length two.  A two-element list with a string key and a
two-character string both qualify; a two-element list whose first
component is a hashable non-string would create a non-string dict key in
Python, which lies outside this string-keyed store model and is mapped to
an error here (no claim concerns such inputs); other shapes raise
`TypeError` or `ValueError` exactly as Python does. -/
def updPair (acc : Store) (x : PyVal) : Except String Store :=
  match x with
  | .list l =>
    match l with
    | [PyVal.str k, w] => .ok (dictSet acc k w)
    | [_, _] => .error ("TypeError")
    | _ => .error ("ValueError")
  | .str s =>
    match s.data with
    | [a, b] => .ok (dictSet acc (String.mk [a]) (.str (String.mk [b])))
    | _ => .error ("ValueError")
  | _ => .error ("TypeError")

/-- Python `base.update(v)` for a parsed JSON value `v`: a dict merges
key by key in order; a list is consumed as a sequence of pairs via
`updPair`; a non-empty string yields length-one elements and a
`ValueError` (the empty string iterates nothing); every other value is
not iterable and raises `TypeError`. -/
def dictUpdate (base : Store) (v : PyVal) : Except String Store :=
  match v with
  | .dict kvs => .ok (kvs.foldl (fun acc p => dictSet acc p.1 p.2) base)
  | .list xs => xs.foldlM updPair base
  | .str s => if s = "" then .ok base else .error ("ValueError")
  | _ => .error ("TypeError")

/-- Embeds `load_data(file)` (source lines 109-147).  The except clauses
catch exactly `FileNotFoundError`, `json.JSONDecodeError` and `IOError`,
each clearing the store and logging; an empty file clears the store and
returns early.  On a successful parse the store is cleared and then
`stock_data.update(new_data)` runs on the cleared dict; an exception
raised by `update` (content that parsed but is not usable as a mapping)
is caught by none of the clauses and escapes to the caller, modelled by
`Except.error`. -/
def load_data (_stock : Store) (input : LoadInput) : Except String (Store × List LogEntry) :=
  match input with
  | .notFound => .ok ([], [(.warning, msgLoadNotFound)])
  | .ioFail => .ok ([], [(.critical, msgLoadIo)])
  | .empty => .ok ([], [(.warning, msgLoadEmpty)])
  | .undecodable => .ok ([], [(.error, msgLoadDecode)])
  | .parsed v =>
    match dictUpdate [] v with
    | .ok s => .ok (s, [(.info, msgLoadOk)])
    | .error e => .error e

/-- Embeds the successful path of `save_data(file)` (source lines
150-163): `json.dumps(stock_data)` is non-empty text that `json.loads`
parses back to the same dict (the stdlib round trip is exact for
string-keyed dicts of the values in `PyVal`), so the written file is
modelled as `LoadInput.parsed` of the store.  A failed write only logs an
error and never touches the in-memory store, so it is irrelevant to the
store semantics. -/
def save_data (stock : Store) : LoadInput × List LogEntry :=
  (.parsed (.dict stock), [(.info, msgSaveOk)])

/-- Item-name validity as checked by the source: a string whose strip is
non-empty. -/
def validItemName : PyVal → Bool
  | .str s => if pyStrip s = "" then false else true
  | _ => false

/-- Quantity validity as checked by the source: `isinstance(qty, int)`
and not negative. -/
def validQty (qty : PyVal) : Bool :=
  pyIsInt qty && decide (0 ≤ pyToInt qty)

/-- Every stored value is a genuine integer. -/
def intValued (s : Store) : Bool :=
  s.all (fun p => isIntVal p.2)

/-- The invariant claimed by the spec data model: keys are non-empty
after stripping and values are non-negative integers. -/
def StoreInv (s : Store) : Prop :=
  ∀ p ∈ s, pyStrip p.1 ≠ "" ∧ ∃ n : Int, p.2 = PyVal.int n ∧ 0 ≤ n

/-- The specified result of `check_low_items`: the names of the entries
whose integer quantity is at most the threshold, in store order. -/
def lowItemsSpec (s : Store) (threshold : Int) : List String :=
  (s.filter (fun p =>
    match p.2 with
    | .int n => decide (n ≤ threshold)
    | _ => false)).map Prod.fst

/-- Stores reachable from the empty store by completed `add_item`,
`remove_item` and `load_data` calls (a step whose embedded call raises is
not a completed step).  `save_data` never changes the in-memory store, so
it is omitted from the step relation. -/
inductive Reachable : Store → Prop where
  | empty : Reachable []
  | add (s : Store) (item qty : PyVal) (s' : Store) (l : List LogEntry) :
      Reachable s → add_item s item qty = .ok (s', l) → Reachable s'
  | rem (s : Store) (item qty : PyVal) (s' : Store) (l : List LogEntry) :
      Reachable s → remove_item s item qty = (s', l) → Reachable s'
  | load (s : Store) (input : LoadInput) (s' : Store) (l : List LogEntry) :
      Reachable s → load_data s input = .ok (s', l) → Reachable s'

/-- Stores reachable from the empty store by `add_item` and `remove_item`
alone, without `load_data`. -/
inductive ReachableAR : Store → Prop where
  | empty : ReachableAR []
  | add (s : Store) (item qty : PyVal) (s' : Store) (l : List LogEntry) :
      ReachableAR s → add_item s item qty = .ok (s', l) → ReachableAR s'
  | rem (s : Store) (item qty : PyVal) (s' : Store) (l : List LogEntry) :
      ReachableAR s → remove_item s item qty = (s', l) → ReachableAR s'

/-! Helper lemmas about the dict primitives. -/

theorem dictGet_dictSet_self (s : Store) (k : String) (v : PyVal) :
    dictGet (dictSet s k v) k = some v := by
  induction s with
  | nil => simp [dictSet, dictGet]
  | cons p rest ih =>
    obtain ⟨k0, v0⟩ := p
    by_cases h : k0 = k
    · simp [dictSet, h, dictGet]
    · simp [dictSet, h, dictGet, ih]

theorem dictGet_dictSet_ne (s : Store) (k k' : String) (v : PyVal) (h : k' ≠ k) :
    dictGet (dictSet s k v) k' = dictGet s k' := by
  have hkk : ¬ (k = k') := fun hh => h hh.symm
  induction s with
  | nil => simp [dictSet, dictGet, hkk]
  | cons p rest ih =>
    obtain ⟨k0, v0⟩ := p
    by_cases h0 : k0 = k
    · subst h0
      simp [dictSet, dictGet, hkk]
    · simp [dictSet, h0, dictGet, ih]

theorem dictGet_dictDel_self (s : Store) (k : String) :
    dictGet (dictDel s k) k = none := by
  induction s with
  | nil => simp [dictDel, dictGet]
  | cons p rest ih =>
    obtain ⟨k0, v0⟩ := p
    by_cases h : k0 = k
    · simp [dictDel, h, ih]
    · simp [dictDel, h, dictGet, ih]

theorem dictGet_dictDel_ne (s : Store) (k k' : String) (h : k' ≠ k) :
    dictGet (dictDel s k) k' = dictGet s k' := by
  induction s with
  | nil => simp [dictDel]
  | cons p rest ih =>
    obtain ⟨k0, v0⟩ := p
    by_cases h0 : k0 = k
    · subst h0
      have hkk : ¬ (k0 = k') := fun hh => h hh.symm
      simp [dictDel, dictGet, hkk, ih]
    · simp [dictDel, h0, dictGet, ih]

theorem dictGet_mem (s : Store) (k : String) (v : PyVal) (h : dictGet s k = some v) :
    (k, v) ∈ s := by
  induction s with
  | nil => simp [dictGet] at h
  | cons p rest ih =>
    obtain ⟨k0, v0⟩ := p
    by_cases h0 : k0 = k
    · subst h0
      simp [dictGet] at h
      simp [h]
    · simp [dictGet, h0] at h
      simp [ih h]

theorem dictSet_eq_of_get (s : Store) (k : String) (v : PyVal)
    (h : dictGet s k = some v) : dictSet s k v = s := by
  induction s with
  | nil => simp [dictGet] at h
  | cons p rest ih =>
    obtain ⟨k0, v0⟩ := p
    by_cases h0 : k0 = k
    · subst h0
      simp [dictGet] at h
      simp [dictSet, h]
    · simp [dictGet, h0] at h
      simp [dictSet, h0, ih h]

theorem mem_dictSet (s : Store) (k : String) (v : PyVal) (p : String × PyVal)
    (h : p ∈ dictSet s k v) : p ∈ s ∨ p = (k, v) := by
  induction s with
  | nil =>
    simp [dictSet] at h
    simp [h]
  | cons q rest ih =>
    obtain ⟨k0, v0⟩ := q
    by_cases h0 : k0 = k
    · simp [dictSet, h0] at h
      rcases h with h | h
      · right; simp [h]
      · left; simp [h]
    · simp [dictSet, h0] at h
      rcases h with h | h
      · left; simp [h]
      · rcases ih h with h1 | h1
        · left; simp [h1]
        · right; exact h1

theorem mem_dictDel (s : Store) (k : String) (p : String × PyVal)
    (h : p ∈ dictDel s k) : p ∈ s := by
  induction s with
  | nil => simp [dictDel] at h
  | cons q rest ih =>
    obtain ⟨k0, v0⟩ := q
    by_cases h0 : k0 = k
    · simp [dictDel, h0] at h
      simp [ih h]
    · simp [dictDel, h0] at h
      rcases h with h | h
      · simp [h]
      · simp [ih h]

theorem dictGet_eq_none_of_not_mem (s : Store) (k : String)
    (h : k ∉ s.map Prod.fst) : dictGet s k = none := by
  induction s with
  | nil => simp [dictGet]
  | cons p rest ih =>
    obtain ⟨k0, v0⟩ := p
    simp only [List.map_cons, List.mem_cons, not_or] at h
    have h1 : ¬ (k0 = k) := fun hh => h.1 hh.symm
    simp [dictGet, h1, ih h.2]

theorem dictSet_of_not_mem (s : Store) (k : String) (v : PyVal)
    (h : k ∉ s.map Prod.fst) : dictSet s k v = s ++ [(k, v)] := by
  induction s with
  | nil => simp [dictSet]
  | cons p rest ih =>
    obtain ⟨k0, v0⟩ := p
    simp only [List.map_cons, List.mem_cons, not_or] at h
    have h1 : ¬ (k0 = k) := fun hh => h.1 hh.symm
    simp [dictSet, h1, ih h.2]

theorem foldl_dictSet_of_disjoint (kvs : List (String × PyVal)) :
    ∀ acc : Store, (kvs.map Prod.fst).Nodup →
    (∀ p ∈ kvs, p.1 ∉ acc.map Prod.fst) →
    kvs.foldl (fun a p => dictSet a p.1 p.2) acc = acc ++ kvs := by
  induction kvs with
  | nil => intro acc _ _; simp
  | cons q rest ih =>
    intro acc hnd hdisj
    obtain ⟨k0, v0⟩ := q
    simp only [List.map_cons, List.nodup_cons] at hnd
    have hk0 : k0 ∉ acc.map Prod.fst := hdisj (k0, v0) (by simp)
    have step : List.foldl (fun a p => dictSet a p.1 p.2) acc ((k0, v0) :: rest)
        = List.foldl (fun a p => dictSet a p.1 p.2) (acc ++ [(k0, v0)]) rest := by
      simp [dictSet_of_not_mem acc k0 v0 hk0]
    have hdisj2 : ∀ p ∈ rest, p.1 ∉ (acc ++ [(k0, v0)]).map Prod.fst := by
      intro p hp
      simp only [List.map_append, List.map_cons, List.map_nil, List.mem_append,
        List.mem_cons, List.not_mem_nil, or_false, not_or]
      constructor
      · exact fun h1 => hdisj p (List.mem_cons_of_mem _ hp) h1
      · intro h1
        exact hnd.1 (h1 ▸ List.mem_map_of_mem Prod.fst hp)
    rw [step, ih (acc ++ [(k0, v0)]) hnd.2 hdisj2]
    simp

/-! Claim theorems. -/

/-- C1, counterexample.  The claim says `load` never raises on any failing
file state, including content that parses but is not a flat string-to-int
mapping.  But a file whose content is the JSON list `[1, 2, 3]` parses,
is cleared into the store by `stock_data.update`, and `update` raises an
uncaught `TypeError` that escapes `load_data` to its caller. -/
theorem load_data_raises_on_json_list :
    load_data [] (LoadInput.parsed (PyVal.list [PyVal.int 1, PyVal.int 2, PyVal.int 3]))
      = .error ("TypeError") := rfl

/-- C1, amended.  On a missing file, an empty file, content that fails
JSON decoding, or an OS-level read error, `load_data` never raises, the
store ends up empty, and a log entry at a level and message specific to
the failure kind is emitted; content that parses to a JSON object is
installed into the cleared store without any validation. -/
theorem load_data_handled_failure_paths (stock : Store) :
    load_data stock LoadInput.notFound = .ok ([], [(LogLevel.warning, msgLoadNotFound)]) ∧
    load_data stock LoadInput.empty = .ok ([], [(LogLevel.warning, msgLoadEmpty)]) ∧
    load_data stock LoadInput.undecodable = .ok ([], [(LogLevel.error, msgLoadDecode)]) ∧
    load_data stock LoadInput.ioFail = .ok ([], [(LogLevel.critical, msgLoadIo)]) ∧
    ∀ kvs : List (String × PyVal),
      load_data stock (LoadInput.parsed (PyVal.dict kvs))
        = .ok (kvs.foldl (fun acc p => dictSet acc p.1 p.2) [], [(LogLevel.info, msgLoadOk)]) :=
  ⟨rfl, rfl, rfl, rfl, fun _ => rfl⟩

/-- C9.  `get_quantity` returns the value stored for the item, and the
integer 0 when the item is not a key of the store; in this embedding it
is a total pure function, so it can neither raise nor mutate. -/
theorem get_quantity_spec (s : Store) (k : String) :
    (∀ v, dictGet s k = some v → get_quantity s k = v) ∧
    (k ∉ s.map Prod.fst → get_quantity s k = PyVal.int 0) := by
  constructor
  · intro v hv
    simp [get_quantity, hv]
  · intro h
    simp [get_quantity, dictGet_eq_none_of_not_mem s k h]

/-- C9, witness at a concrete store. -/
theorem get_quantity_spec_witness :
    get_quantity [("apple", PyVal.int 7)] ("apple") = PyVal.int 7 ∧
    get_quantity [("apple", PyVal.int 7)] ("orange") = PyVal.int 0 := by
  constructor
  · exact (get_quantity_spec [("apple", PyVal.int 7)] ("apple")).1 (PyVal.int 7) rfl
  · exact (get_quantity_spec [("apple", PyVal.int 7)] ("orange")).2 (by decide)

/-- C4.  A valid `remove_item` call on a store where the item holds stock
`v`: removing `qty >= v` deletes the key (lookup yields `none` and
`get_quantity` yields 0); removing `qty < v` leaves `v - qty`. -/
theorem remove_item_present_spec (stock : Store) (item : String) (qty v : Int)
    (hitem : pyStrip item ≠ "") (hqty : 0 ≤ qty)
    (hv : dictGet stock item = some (PyVal.int v)) :
    (v ≤ qty →
      dictGet (remove_item stock (PyVal.str item) (PyVal.int qty)).1 item = none ∧
      get_quantity (remove_item stock (PyVal.str item) (PyVal.int qty)).1 item = PyVal.int 0) ∧
    (qty < v →
      get_quantity (remove_item stock (PyVal.str item) (PyVal.int qty)).1 item
        = PyVal.int (v - qty)) := by
  have hq2 : ¬ (qty < 0) := by omega
  constructor
  · intro hle
    have hr : remove_item stock (PyVal.str item) (PyVal.int qty)
        = (dictDel stock item, [(.info, msgRemAll)]) := by
      simp [remove_item, hitem, hq2, hv, pyIsInt, pyToInt, hle]
    rw [hr]
    constructor
    · exact dictGet_dictDel_self stock item
    · simp [get_quantity, dictGet_dictDel_self]
  · intro hlt
    have hnle : ¬ (v ≤ qty) := by omega
    have hr : remove_item stock (PyVal.str item) (PyVal.int qty)
        = (dictSet stock item (PyVal.int (v - qty)), [(.info, msgRemSome)]) := by
      simp [remove_item, hitem, hq2, hv, pyIsInt, pyToInt, hnle]
    rw [hr]
    simp [get_quantity, dictGet_dictSet_self]

/-- C4, witness at a concrete store. -/
theorem remove_item_present_spec_witness :
    (dictGet (remove_item [("apple", PyVal.int 10)] (PyVal.str ("apple")) (PyVal.int 12)).1
        ("apple") = none ∧
      get_quantity (remove_item [("apple", PyVal.int 10)] (PyVal.str ("apple"))
        (PyVal.int 12)).1 ("apple") = PyVal.int 0) ∧
    get_quantity (remove_item [("apple", PyVal.int 10)] (PyVal.str ("apple"))
      (PyVal.int 3)).1 ("apple") = PyVal.int 7 := by
  constructor
  · exact (remove_item_present_spec [("apple", PyVal.int 10)] ("apple") 12 10
      (by decide) (by decide) rfl).1 (by decide)
  · exact (remove_item_present_spec [("apple", PyVal.int 10)] ("apple") 3 10
      (by decide) (by decide) rfl).2 (by decide)

/-- C5.  A valid `add_item` call completes without raising whenever the
prior quantity of the item is an integer (`n`, with 0 when absent), and
afterwards `get_quantity` returns the prior value plus `qty`. -/
theorem add_item_increments_quantity (stock : Store) (item : String) (qty n : Int)
    (hitem : pyStrip item ≠ "") (hqty : 0 ≤ qty)
    (hn : get_quantity stock item = PyVal.int n) :
    ∃ stock2 l, add_item stock (PyVal.str item) (PyVal.int qty) = .ok (stock2, l) ∧
      get_quantity stock2 item = PyVal.int (n + qty) := by
  have hq2 : ¬ (qty < 0) := by omega
  simp only [get_quantity] at hn
  refine ⟨dictSet stock item (PyVal.int (n + qty)), [(.info, msgAdded)], ?_, ?_⟩
  · simp [add_item, hitem, hq2, pyIsInt, pyToInt, hn, pyAddInt]
  · simp [get_quantity, dictGet_dictSet_self]

/-- C5, witness at a concrete store. -/
theorem add_item_increments_quantity_witness :
    ∃ stock2 l, add_item [("apple", PyVal.int 10)] (PyVal.str ("apple")) (PyVal.int 5)
        = .ok (stock2, l) ∧
      get_quantity stock2 ("apple") = PyVal.int 15 :=
  add_item_increments_quantity [("apple", PyVal.int 10)] ("apple") 5 10
    (by decide) (by decide) rfl

/-- C2, counterexample.  The claim says no reachable store maps a key to
quantity 0 and that `add(item, 0)` never creates a key.  But
`add_item(x, 0)` on the empty store passes validation and executes
`stock_data[x] = stock_data.get(x, 0) + 0`, creating the key `x` with
quantity 0, so a store with a zero-quantity key is reachable. -/
theorem add_zero_creates_zero_key :
    Reachable [("x", PyVal.int 0)] ∧
    dictGet [("x", PyVal.int 0)] ("x") = some (PyVal.int 0) := by
  constructor
  · exact Reachable.add [] (PyVal.str ("x")) (PyVal.int 0) [("x", PyVal.int 0)]
      [(.info, msgAdded)] Reachable.empty rfl
  · rfl

/-- C2, amended.  A removal whose quantity meets or exceeds the current
stock deletes the key instead of retaining it at 0, and `add(item, 0)` on
an item already present leaves the store unchanged; however `add(item, 0)`
on an absent item creates the key with quantity 0 (see the
counterexample), so the no-zero-quantity-key invariant does not hold for
all reachable stores. -/
theorem remove_deletes_and_add_zero_noop (stock : Store) (item : String) (qty v : Int)
    (hitem : pyStrip item ≠ "") (hqty : 0 ≤ qty)
    (hv : dictGet stock item = some (PyVal.int v)) :
    (v ≤ qty →
      dictGet (remove_item stock (PyVal.str item) (PyVal.int qty)).1 item = none) ∧
    add_item stock (PyVal.str item) (PyVal.int 0)
      = .ok (stock, [(LogLevel.info, msgAdded)]) := by
  have hq2 : ¬ (qty < 0) := by omega
  constructor
  · intro hle
    have hr : remove_item stock (PyVal.str item) (PyVal.int qty)
        = (dictDel stock item, [(.info, msgRemAll)]) := by
      simp [remove_item, hitem, hq2, hv, pyIsInt, pyToInt, hle]
    rw [hr]
    exact dictGet_dictDel_self stock item
  · have hset : dictSet stock item (PyVal.int v) = stock :=
      dictSet_eq_of_get stock item (PyVal.int v) hv
    simp [add_item, hitem, pyIsInt, pyToInt, hv, pyAddInt, hset]

/-- C2, witness for the amended claim at a concrete store. -/
theorem remove_deletes_and_add_zero_noop_witness :
    dictGet (remove_item [("x", PyVal.int 5)] (PyVal.str ("x")) (PyVal.int 7)).1 ("x")
      = none ∧
    add_item [("x", PyVal.int 5)] (PyVal.str ("x")) (PyVal.int 0)
      = .ok ([("x", PyVal.int 5)], [(LogLevel.info, msgAdded)]) := by
  have h := remove_deletes_and_add_zero_noop [("x", PyVal.int 5)] ("x") 7 5
    (by decide) (by decide) rfl
  exact ⟨h.1 (by decide), h.2⟩

/-- C3, counterexample.  The claim says every store reachable by add,
remove and load has non-empty non-whitespace keys and non-negative
integer values.  But loading a file whose content parses to the JSON
object mapping the empty string to the string value bad installs that
entry verbatim: the code performs no validation on loaded data. -/
theorem load_installs_invalid_entries :
    Reachable [("", PyVal.str ("bad"))] ∧
    pyStrip "" = "" ∧
    isIntVal (PyVal.str ("bad")) = false := by
  refine ⟨?_, rfl, rfl⟩
  exact Reachable.load [] (LoadInput.parsed (PyVal.dict [("", PyVal.str ("bad"))]))
    [("", PyVal.str ("bad"))] [(.info, msgLoadOk)] Reachable.empty rfl

/-- Reduction lemma: `pyIsInt` on an int constructor. -/
theorem pyIsInt_int (n : Int) : pyIsInt (PyVal.int n) = true := rfl

/-- Reduction lemma: `pyToInt` on an int constructor. -/
theorem pyToInt_int (n : Int) : pyToInt (PyVal.int n) = n := rfl

/-- Validation helper: `add_item` with a valid item but invalid quantity
logs and leaves the store unchanged. -/
theorem add_item_invalid_qty (stock : Store) (s : String) (qty : PyVal)
    (h1 : ¬ pyStrip s = "") (h2 : ¬ pyIsInt qty ∨ pyToInt qty < 0) :
    add_item stock (PyVal.str s) qty = .ok (stock, [(.error, msgAddBadQty)]) := by
  rcases h2 with hb | hb
  · have hb2 : pyIsInt qty = false := by
      cases hx : pyIsInt qty
      · rfl
      · exact absurd hx hb
    simp [add_item, h1, hb2]
  · simp [add_item, h1, hb]

/-- Validation helper: `remove_item` with a valid item but invalid
quantity logs and leaves the store unchanged. -/
theorem remove_item_invalid_qty (stock : Store) (s : String) (qty : PyVal)
    (h1 : ¬ pyStrip s = "") (h2 : ¬ pyIsInt qty ∨ pyToInt qty < 0) :
    remove_item stock (PyVal.str s) qty = (stock, [(.error, msgRemBadQty)]) := by
  rcases h2 with hb | hb
  · have hb2 : pyIsInt qty = false := by
      cases hx : pyIsInt qty
      · rfl
      · exact absurd hx hb
    simp [remove_item, h1, hb2]
  · simp [remove_item, h1, hb]

/-- Inversion helper: the store a completed `add_item` call returns is
either unchanged or a `dictSet` of the (string) item. -/
theorem add_item_result_store (stock : Store) (item qty : PyVal) (s' : Store)
    (l : List LogEntry) (h : add_item stock item qty = .ok (s', l)) :
    s' = stock ∨ ∃ s v, item = PyVal.str s ∧ s' = dictSet stock s v := by
  cases item with
  | str s =>
    by_cases h1 : pyStrip s = ""
    · simp [add_item, h1] at h
      exact Or.inl h.1.symm
    · by_cases h2 : ¬ pyIsInt qty ∨ pyToInt qty < 0
      · rw [add_item_invalid_qty stock s qty h1 h2] at h
        simp at h
        exact Or.inl h.1.symm
      · rcases not_or.mp h2 with ⟨ha, hb⟩
        have hi : pyIsInt qty = true := not_not.mp ha
        by_cases h3 : pyIsInt ((dictGet stock s).getD (PyVal.int 0)) = true
        · simp [add_item, h1, hi, hb, pyAddInt, h3] at h
          exact Or.inr ⟨s, PyVal.int (pyToInt ((dictGet stock s).getD (PyVal.int 0))
            + pyToInt qty), rfl, h.1.symm⟩
        · simp [add_item, h1, hi, hb, pyAddInt, h3] at h
  | null => simp [add_item] at h; exact Or.inl h.1.symm
  | bool b => simp [add_item] at h; exact Or.inl h.1.symm
  | int n => simp [add_item] at h; exact Or.inl h.1.symm
  | list xs => simp [add_item] at h; exact Or.inl h.1.symm
  | dict kvs => simp [add_item] at h; exact Or.inl h.1.symm

/-- Inversion helper: the store `remove_item` returns is unchanged, a
`dictDel` of the (string) item, or a `dictSet` of it. -/
theorem remove_item_result_store (stock : Store) (item qty : PyVal) :
    (remove_item stock item qty).1 = stock ∨
    ∃ s, item = PyVal.str s ∧
      ((remove_item stock item qty).1 = dictDel stock s ∨
       ∃ v, (remove_item stock item qty).1 = dictSet stock s v) := by
  cases item with
  | str s =>
    by_cases h1 : pyStrip s = ""
    · left; simp [remove_item, h1]
    · by_cases h2 : ¬ pyIsInt qty ∨ pyToInt qty < 0
      · left
        rw [remove_item_invalid_qty stock s qty h1 h2]
      · rcases not_or.mp h2 with ⟨ha, hb⟩
        have hi : pyIsInt qty = true := not_not.mp ha
        cases hg : dictGet stock s with
        | none => left; simp [remove_item, h1, hi, hb, hg]
        | some v =>
          by_cases h3 : pyIsInt v = true
          · by_cases h4 : pyToInt v ≤ pyToInt qty
            · right
              exact ⟨s, rfl, Or.inl (by simp [remove_item, h1, hi, hb, hg, h3, h4])⟩
            · right
              exact ⟨s, rfl, Or.inr ⟨PyVal.int (pyToInt v - pyToInt qty),
                by simp [remove_item, h1, hi, hb, hg, h3, h4]⟩⟩
          · left; simp [remove_item, h1, hi, hb, hg, h3]
  | null => left; simp [remove_item]
  | bool b => left; simp [remove_item]
  | int n => left; simp [remove_item]
  | list xs => left; simp [remove_item]
  | dict kvs => left; simp [remove_item]

/-- C10.  Frame property: any `add_item` or `remove_item` call, valid or
not, leaves the binding of every other key unchanged at the level of the
map itself (`dictGet`), so an absent key stays absent and a present key
keeps its exact value — in particular a key present at quantity 0 is not
deleted; for `add_item` this concerns completed calls (when the call
raises, the Python assignment never executes, so the store is unchanged
there too). -/
theorem add_remove_frame (stock : Store) (item qty : PyVal) (other : String)
    (hne : item ≠ PyVal.str other) :
    (∀ s' l, add_item stock item qty = .ok (s', l) →
      dictGet s' other = dictGet stock other) ∧
    dictGet (remove_item stock item qty).1 other = dictGet stock other := by
  constructor
  · intro s' l h
    rcases add_item_result_store stock item qty s' l h with h1 | ⟨s, v, hs, h1⟩
    · rw [h1]
    · have hso : other ≠ s := by
        intro hh
        exact hne (by rw [hs, hh])
      subst h1
      exact dictGet_dictSet_ne stock s other v hso
  · rcases remove_item_result_store stock item qty with h1 | ⟨s, hs, h1 | ⟨v, h1⟩⟩
    · rw [h1]
    · have hso : other ≠ s := by
        intro hh
        exact hne (by rw [hs, hh])
      rw [h1]
      exact dictGet_dictDel_ne stock s other hso
    · have hso : other ≠ s := by
        intro hh
        exact hne (by rw [hs, hh])
      rw [h1]
      exact dictGet_dictSet_ne stock s other v hso

/-- C10, witness at a concrete store in which the other key is present at
quantity 0: deleting all stock of apple keeps the zero-quantity pear
binding present with its exact value. -/
theorem add_remove_frame_witness :
    dictGet (remove_item [("apple", PyVal.int 10), ("pear", PyVal.int 0)]
        (PyVal.str ("apple")) (PyVal.int 99)).1 ("pear")
      = dictGet [("apple", PyVal.int 10), ("pear", PyVal.int 0)] ("pear") :=
  (add_remove_frame [("apple", PyVal.int 10), ("pear", PyVal.int 0)]
    (PyVal.str ("apple")) (PyVal.int 99) ("pear")
    (by intro hh; injection hh with hss; exact absurd hss (by decide))).2

/-- Preservation helper: a completed `add_item` call preserves the
key/value invariant of the spec data model. -/
theorem add_item_preserves_inv (stock : Store) (item qty : PyVal) (s' : Store)
    (l : List LogEntry) (hinv : StoreInv stock)
    (h : add_item stock item qty = .ok (s', l)) : StoreInv s' := by
  cases item with
  | str s =>
    by_cases h1 : pyStrip s = ""
    · simp [add_item, h1] at h
      rw [← h.1]; exact hinv
    · by_cases h2 : ¬ pyIsInt qty ∨ pyToInt qty < 0
      · rw [add_item_invalid_qty stock s qty h1 h2] at h
        simp at h
        rw [← h.1]; exact hinv
      · rcases not_or.mp h2 with ⟨ha, hb⟩
        have hi : pyIsInt qty = true := not_not.mp ha
        have hq : 0 ≤ pyToInt qty := by omega
        obtain ⟨m, hm, hm0⟩ :
            ∃ m : Int, (dictGet stock s).getD (PyVal.int 0) = PyVal.int m ∧ 0 ≤ m := by
          cases hg : dictGet stock s with
          | none => exact ⟨0, rfl, le_refl 0⟩
          | some v =>
            rcases (hinv (s, v) (dictGet_mem stock s v hg)).2 with ⟨m, hm, hm0⟩
            exact ⟨m, hm, hm0⟩
        simp [add_item, h1, hi, hb, hm, pyAddInt, pyIsInt_int, pyToInt_int] at h
        rw [← h.1]
        intro p hp
        rcases mem_dictSet stock s (PyVal.int (m + pyToInt qty)) p hp with hmem | heq
        · exact hinv p hmem
        · rw [heq]
          exact ⟨h1, ⟨m + pyToInt qty, rfl, by omega⟩⟩
  | null => simp [add_item] at h; rw [← h.1]; exact hinv
  | bool b => simp [add_item] at h; rw [← h.1]; exact hinv
  | int n => simp [add_item] at h; rw [← h.1]; exact hinv
  | list xs => simp [add_item] at h; rw [← h.1]; exact hinv
  | dict kvs => simp [add_item] at h; rw [← h.1]; exact hinv

/-- Preservation helper: `remove_item` preserves the key/value invariant
of the spec data model. -/
theorem remove_item_preserves_inv (stock : Store) (item qty : PyVal) (s' : Store)
    (l : List LogEntry) (hinv : StoreInv stock)
    (h : remove_item stock item qty = (s', l)) : StoreInv s' := by
  cases item with
  | str s =>
    by_cases h1 : pyStrip s = ""
    · simp [remove_item, h1] at h
      rw [← h.1]; exact hinv
    · by_cases h2 : ¬ pyIsInt qty ∨ pyToInt qty < 0
      · rw [remove_item_invalid_qty stock s qty h1 h2] at h
        simp at h
        rw [← h.1]; exact hinv
      · rcases not_or.mp h2 with ⟨ha, hb⟩
        have hi : pyIsInt qty = true := not_not.mp ha
        cases hg : dictGet stock s with
        | none =>
          simp [remove_item, h1, hi, hb, hg] at h
          rw [← h.1]; exact hinv
        | some v =>
          obtain ⟨m, hm, hm0⟩ := (hinv (s, v) (dictGet_mem stock s v hg)).2
          subst hm
          by_cases h4 : m ≤ pyToInt qty
          · simp [remove_item, h1, hi, hb, hg, pyIsInt_int, pyToInt_int, h4] at h
            rw [← h.1]
            intro p hp
            exact hinv p (mem_dictDel stock s p hp)
          · simp [remove_item, h1, hi, hb, hg, pyIsInt_int, pyToInt_int, h4] at h
            rw [← h.1]
            intro p hp
            rcases mem_dictSet stock s (PyVal.int (m - pyToInt qty)) p hp with hmem | heq
            · exact hinv p hmem
            · rw [heq]
              exact ⟨h1, ⟨m - pyToInt qty, rfl, by omega⟩⟩
  | null => simp [remove_item] at h; rw [← h.1]; exact hinv
  | bool b => simp [remove_item] at h; rw [← h.1]; exact hinv
  | int n => simp [remove_item] at h; rw [← h.1]; exact hinv
  | list xs => simp [remove_item] at h; rw [← h.1]; exact hinv
  | dict kvs => simp [remove_item] at h; rw [← h.1]; exact hinv

/-- C3, amended.  Every store reachable from the empty store by `add_item`
and `remove_item` alone satisfies the data-model invariant: keys are
non-empty non-whitespace strings and values are non-negative integers.
The original claim also allowed `load` in the sequence, which is refuted
by the counterexample: `load_data` installs parsed content verbatim
without validating keys or values. -/
theorem add_remove_reachable_invariant (s : Store) (h : ReachableAR s) : StoreInv s := by
  induction h with
  | empty =>
    intro p hp
    exact absurd hp (List.not_mem_nil p)
  | add s0 item qty s' l hr hstep ih => exact add_item_preserves_inv s0 item qty s' l ih hstep
  | rem s0 item qty s' l hr hstep ih => exact remove_item_preserves_inv s0 item qty s' l ih hstep

/-- C3, witness for the amended claim at a concrete reachable store. -/
theorem add_remove_reachable_invariant_witness :
    StoreInv [("apple", PyVal.int 10)] :=
  add_remove_reachable_invariant [("apple", PyVal.int 10)]
    (ReachableAR.add [] (PyVal.str ("apple")) (PyVal.int 10) [("apple", PyVal.int 10)]
      [(.info, msgAdded)] ReachableAR.empty rfl)

/-- C7.  On a store whose values are integers, `check_low_items` returns
exactly the names of the items whose quantity is at most the threshold,
in the store iteration (insertion) order; as a pure function of the store
it performs no mutation. -/
theorem check_low_items_spec (s : Store) (t : Int) (h : intValued s = true) :
    check_low_items s t = .ok (lowItemsSpec s t) := by
  induction s with
  | nil => simp [check_low_items, lowItemsSpec]
  | cons p rest ih =>
    obtain ⟨k, v⟩ := p
    simp only [intValued, List.all_cons, Bool.and_eq_true] at h
    have ih2 := ih (by simpa [intValued] using h.2)
    obtain ⟨n, rfl⟩ : ∃ n, v = PyVal.int n := by
      rcases h with ⟨h1, _⟩
      cases v with
      | int n => exact ⟨n, rfl⟩
      | null => exact absurd h1 (by simp [isIntVal])
      | bool b => exact absurd h1 (by simp [isIntVal])
      | str s2 => exact absurd h1 (by simp [isIntVal])
      | list xs => exact absurd h1 (by simp [isIntVal])
      | dict kvs => exact absurd h1 (by simp [isIntVal])
    by_cases hle : n ≤ t
    · simp [check_low_items, pyIsInt_int, pyToInt_int, ih2, lowItemsSpec,
        List.filter_cons, hle, Except.map]
    · simp [check_low_items, pyIsInt_int, pyToInt_int, ih2, lowItemsSpec,
        List.filter_cons, hle, Except.map]

/-- C7, witness at a concrete store: quantity 3 is below the threshold 5,
quantity 9 is not. -/
theorem check_low_items_spec_witness :
    check_low_items [("a", PyVal.int 3), ("b", PyVal.int 9)] 5 = .ok [("a")] := by
  rw [check_low_items_spec [("a", PyVal.int 3), ("b", PyVal.int 9)] 5 rfl]
  rfl

/-- C6.  Saving a well-formed store (distinct string keys, integer
values) and loading the result back yields a store with exactly the same
key-to-quantity mapping. -/
theorem save_load_round_trip (stock s0 : Store)
    (hnd : (stock.map Prod.fst).Nodup) (_hint : intValued stock = true) :
    ∃ s' l, load_data s0 (save_data stock).1 = .ok (s', l) ∧
      ∀ k : String, dictGet s' k = dictGet stock k := by
  refine ⟨stock, [(.info, msgLoadOk)], ?_, fun k => rfl⟩
  have hupd : dictUpdate [] (PyVal.dict stock) = .ok stock := by
    simp only [dictUpdate]
    rw [foldl_dictSet_of_disjoint stock [] hnd (by simp)]
    simp
  simp [save_data, load_data, hupd]

/-- C6, witness at a concrete store. -/
theorem save_load_round_trip_witness :
    ∃ s' l, load_data [] (save_data [("apple", PyVal.int 7), ("banana", PyVal.int 18)]).1
        = .ok (s', l) ∧
      ∀ k : String,
        dictGet s' k = dictGet [("apple", PyVal.int 7), ("banana", PyVal.int 18)] k :=
  save_load_round_trip [("apple", PyVal.int 7), ("banana", PyVal.int 18)] []
    (by decide) (by decide)

/-- C8.  A call of `add_item` or `remove_item` whose item is not a string
or strips to empty, or whose quantity fails the `isinstance int` check
(booleans pass it, as in Python) or is negative, performs no mutation,
raises nothing, and emits one log entry; `remove_item` of an absent item
likewise leaves the store unchanged and logs a warning. -/
theorem invalid_calls_no_mutation (stock : Store) (item qty : PyVal) :
    (¬ validItemName item = true ∨ ¬ validQty qty = true →
      (∃ e, add_item stock item qty = .ok (stock, [e])) ∧
      ∃ e, remove_item stock item qty = (stock, [e])) ∧
    (∀ s, item = PyVal.str s → validItemName item = true → validQty qty = true →
      dictGet stock s = none →
      remove_item stock item qty = (stock, [(LogLevel.warning, msgRemMissing)])) := by
  constructor
  · intro hbad
    cases item with
    | str s =>
      by_cases h1 : pyStrip s = ""
      · exact ⟨⟨(.error, msgAddBadItem), by simp [add_item, h1]⟩,
          ⟨(.error, msgRemBadItem), by simp [remove_item, h1]⟩⟩
      · have hvn : validItemName (PyVal.str s) = true := by simp [validItemName, h1]
        have hq : ¬ validQty qty = true := by
          rcases hbad with hb | hb
          · exact absurd hvn hb
          · exact hb
        have hcond : ¬ pyIsInt qty ∨ pyToInt qty < 0 := by
          simp only [validQty, Bool.and_eq_true, decide_eq_true_eq, not_and, not_le] at hq
          by_cases hi : pyIsInt qty = true
          · exact Or.inr (hq hi)
          · exact Or.inl hi
        exact ⟨⟨(.error, msgAddBadQty), add_item_invalid_qty stock s qty h1 hcond⟩,
          ⟨(.error, msgRemBadQty), remove_item_invalid_qty stock s qty h1 hcond⟩⟩
    | null =>
      exact ⟨⟨(.error, msgAddBadItem), by simp [add_item]⟩,
        ⟨(.error, msgRemBadItem), by simp [remove_item]⟩⟩
    | bool b =>
      exact ⟨⟨(.error, msgAddBadItem), by simp [add_item]⟩,
        ⟨(.error, msgRemBadItem), by simp [remove_item]⟩⟩
    | int n =>
      exact ⟨⟨(.error, msgAddBadItem), by simp [add_item]⟩,
        ⟨(.error, msgRemBadItem), by simp [remove_item]⟩⟩
    | list xs =>
      exact ⟨⟨(.error, msgAddBadItem), by simp [add_item]⟩,
        ⟨(.error, msgRemBadItem), by simp [remove_item]⟩⟩
    | dict kvs =>
      exact ⟨⟨(.error, msgAddBadItem), by simp [add_item]⟩,
        ⟨(.error, msgRemBadItem), by simp [remove_item]⟩⟩
  · intro s hs hvn hvq hnone
    subst hs
    have h1 : ¬ pyStrip s = "" := by
      by_contra hc
      simp [validItemName, hc] at hvn
    have hvq2 : pyIsInt qty = true ∧ 0 ≤ pyToInt qty := by
      have hcopy := hvq
      simp only [validQty, Bool.and_eq_true, decide_eq_true_eq] at hcopy
      exact hcopy
    have hb : ¬ pyToInt qty < 0 := not_lt.mpr hvq2.2
    simp [remove_item, h1, hvq2.1, hb, hnone]

/-- C8, witness: an invalid item name, an invalid (negative) quantity,
and a removal of an absent item, all at concrete stores. -/
theorem invalid_calls_no_mutation_witness :
    (∃ e, add_item [("apple", PyVal.int 5)] (PyVal.int 123) (PyVal.int 10)
      = .ok ([("apple", PyVal.int 5)], [e])) ∧
    (∃ e, remove_item [("apple", PyVal.int 5)] (PyVal.str ("apple")) (PyVal.int (-2))
      = ([("apple", PyVal.int 5)], [e])) ∧
    remove_item [("apple", PyVal.int 5)] (PyVal.str ("orange")) (PyVal.int 1)
      = ([("apple", PyVal.int 5)], [(LogLevel.warning, msgRemMissing)]) := by
  refine ⟨?_, ?_, ?_⟩
  · exact ((invalid_calls_no_mutation [("apple", PyVal.int 5)] (PyVal.int 123)
      (PyVal.int 10)).1 (Or.inl (by decide))).1
  · exact ((invalid_calls_no_mutation [("apple", PyVal.int 5)] (PyVal.str ("apple"))
      (PyVal.int (-2))).1 (Or.inr (by decide))).2
  · exact (invalid_calls_no_mutation [("apple", PyVal.int 5)] (PyVal.str ("orange"))
      (PyVal.int 1)).2 ("orange") rfl (by decide) (by decide) rfl
